import Mathlib

/-!
Verification of the order-creation core of the ConsultantOnboard retail
application (src/server/storage.ts, src/server/routes.ts, src/shared/schema.ts).

The in-memory backend (`MemStorage`) keeps JavaScript `Map`s from integer ids
to records; we embed those as association lists over `Int` keys with
`Map.get`/`Map.set` semantics (`alookup` / `aset`).  Decimal columns
(`numeric` in the Postgres schema) travel through the JS layer as strings and
are embedded as `String`.  Integer columns are embedded as `Int` (JS numbers,
which may go negative — nothing in the code forces them non-negative).
-/

set_option autoImplicit false

/-- Association-list lookup, embedding JavaScript `Map.prototype.get`. -/
def alookup {α : Type} : List (Int × α) → Int → Option α
  | [], _ => none
  | (k, v) :: rest, k' => if k' = k then some v else alookup rest k'

/-- Association-list update, embedding JavaScript `Map.prototype.set`:
replace the binding if the key is present, otherwise append it. -/
def aset {α : Type} : List (Int × α) → Int → α → List (Int × α)
  | [], k, v => [(k, v)]
  | (k0, v0) :: rest, k, v =>
      if k = k0 then (k, v) :: rest else (k0, v0) :: aset rest k v

/-- Row of the `users` table (shared/schema.ts). -/
structure User where
  id : Int
  username : String
  password : String
  name : String
  role : String
  deriving DecidableEq

/-- Row of the `categories` table (shared/schema.ts). -/
structure Category where
  id : Int
  name : String
  description : Option String
  deriving DecidableEq

/-- Row of the `customers` table (shared/schema.ts). -/
structure Customer where
  id : Int
  name : String
  email : Option String
  phone : Option String
  address : Option String
  deriving DecidableEq

/-- Row of the `products` table (shared/schema.ts). -/
structure Product where
  id : Int
  name : String
  description : Option String
  sku : String
  price : String
  imageUrl : Option String
  categoryId : Option Int
  stock : Int
  deriving DecidableEq

/-- Row of the `orders` table (shared/schema.ts); `orderDate` is a
server-assigned timestamp, embedded as a `Nat`. -/
structure Order where
  id : Int
  customerId : Option Int
  orderDate : Nat
  status : String
  total : String
  deriving DecidableEq

/-- Row of the `order_items` table (shared/schema.ts). -/
structure OrderItem where
  id : Int
  orderId : Int
  productId : Int
  quantity : Int
  unitPrice : String
  deriving DecidableEq

/-- `InsertOrder` (insertOrderSchema: `orders` minus `id` and `orderDate`). -/
structure InsertOrder where
  customerId : Option Int
  status : String
  total : String
  deriving DecidableEq

/-- `InsertOrderItem` with `orderId` omitted, the shape the order-creation
route hands to `storage.createOrder` (routes.ts line 296). -/
structure InsertOrderItem where
  productId : Int
  quantity : Int
  unitPrice : String
  deriving DecidableEq

/-- A raw line item as submitted by an HTTP client, possibly carrying an
`orderId` field of its own (routes.ts line 295 destructures it away). -/
structure RawOrderItem where
  orderId : Option Int
  productId : Int
  quantity : Int
  unitPrice : String
  deriving DecidableEq

/-- The full private state of a `MemStorage` instance (storage.ts 409–441):
six `Map`s plus six id counters.  `orderItems` maps an order id to the list
of that order's line items, exactly as in the source. -/
structure MemState where
  users : List (Int × User)
  categories : List (Int × Category)
  products : List (Int × Product)
  customers : List (Int × Customer)
  orders : List (Int × Order)
  orderItems : List (Int × List OrderItem)
  userId : Int
  categoryId : Int
  productId : Int
  customerId : Int
  orderId : Int
  orderItemId : Int
  deriving DecidableEq

namespace MemStorage

/-- The body of the `items.map` callback in `MemStorage.createOrder`
(storage.ts 679–690), sequenced left to right: assign the next order-item id,
look up the referenced product, clamp-decrement its stock when it exists
(`Math.max(0, product.stock - item.quantity)`), and build the stored
`OrderItem` carrying the new order's id.  Returns the built items, the
updated products map, and the advanced order-item counter. -/
def processItems (products : List (Int × Product)) (nextItemId : Int)
    (oid : Int) : List InsertOrderItem →
      List OrderItem × List (Int × Product) × Int
  | [] => ([], products, nextItemId)
  | item :: rest =>
      let products' :=
        match alookup products item.productId with
        | some p => aset products p.id
            { p with stock := max 0 (p.stock - item.quantity) }
        | none => products
      let r := processItems products' (nextItemId + 1) oid rest
      (⟨nextItemId, oid, item.productId, item.quantity, item.unitPrice⟩ :: r.1,
        r.2.1, r.2.2)

/-- `MemStorage.createOrder` (storage.ts 669–695): take the next order id,
store the new order, process every line item (assigning item ids, attaching
the order id, clamp-decrementing stock of existing referenced products), and
store the item list under the order's id. -/
def createOrder (s : MemState) (order : InsertOrder)
    (items : List InsertOrderItem) (now : Nat) : Order × MemState :=
  let id := s.orderId
  let newOrder : Order :=
    { id := id, customerId := order.customerId, orderDate := now,
      status := order.status, total := order.total }
  let r := processItems s.products s.orderItemId id items
  (newOrder,
    { s with
        orders := aset s.orders id newOrder
        orderId := s.orderId + 1
        products := r.2.1
        orderItemId := r.2.2
        orderItems := aset s.orderItems id r.1 })

/-- `MemStorage.updateOrderStatus` (storage.ts 697–704): replace the status
field of an existing order, or return `none` leaving the state untouched. -/
def updateOrderStatus (s : MemState) (id : Int) (status : String) :
    Option Order × MemState :=
  match alookup s.orders id with
  | none => (none, s)
  | some o =>
      let o' : Order := { o with status := status }
      (some o', { s with orders := aset s.orders id o' })

/-- `MemStorage.updateProductStock` (storage.ts 609–619): add `quantity` to
the stored stock of an existing product — no clamping — or return `none`
leaving the state untouched. -/
def updateProductStock (s : MemState) (id : Int) (quantity : Int) :
    Option Product × MemState :=
  match alookup s.products id with
  | none => (none, s)
  | some p =>
      let p' : Product := { p with stock := p.stock + quantity }
      (some p', { s with products := aset s.products id p' })

end MemStorage

/-- Sum of the quantities of the line items of one order that reference
product `k` (the spec's `sum_of_quantities_for_that_product_in_this_order`). -/
def sumQty (k : Int) : List InsertOrderItem → Int
  | [] => 0
  | it :: rest => (if it.productId = k then it.quantity else 0) + sumQty k rest

/-- The stock of product `k` after the per-item clamp loop of `createOrder`
runs over `items` starting from stock `s`: each item referencing `k`
replaces the stock by `max 0 (stock - quantity)`, in list order. -/
def applyStock (s : Int) (k : Int) : List InsertOrderItem → Int
  | [] => s
  | it :: rest =>
      if it.productId = k then applyStock (max 0 (s - it.quantity)) k rest
      else applyStock s k rest

/-- The products map is keyed by product id: every stored pair binds a
product to its own id.  `MemStorage.createProduct` (storage.ts 593–598)
establishes this and every product update preserves it. -/
def productsWF (m : List (Int × Product)) : Prop :=
  ∀ e ∈ m, (e.2).id = e.1

instance (m : List (Int × Product)) : Decidable (productsWF m) := by
  unfold productsWF; infer_instance

/-- Every order id stored in the orders map is below the `orderId` counter,
so the counter always yields a fresh id (maintained by `createOrder`). -/
def ordersFresh (s : MemState) : Prop :=
  ∀ e ∈ s.orders, e.1 < s.orderId

instance (s : MemState) : Decidable (ordersFresh s) := by
  unfold ordersFresh; infer_instance

/-- Every key of the order-items map is below the `orderId` counter (the map
is keyed by order id, so this tracks `ordersFresh`). -/
def orderItemsFresh (s : MemState) : Prop :=
  ∀ e ∈ s.orderItems, e.1 < s.orderId

instance (s : MemState) : Decidable (orderItemsFresh s) := by
  unfold orderItemsFresh; infer_instance

/-- The order-item records `processItems` builds, separated from its stock
effects: sequential item ids starting at `nid`, all carrying order id
`oid`, copying productId/quantity/unitPrice from the inputs. -/
def itemsWithIds (nid oid : Int) : List InsertOrderItem → List OrderItem
  | [] => []
  | it :: rest =>
      ⟨nid, oid, it.productId, it.quantity, it.unitPrice⟩ ::
        itemsWithIds (nid + 1) oid rest

/-- Outcome of the `POST /api/orders` route handler (routes.ts 282–306). -/
inductive OrderRouteResult
  | badRequest (message : String)
  | created (order : Order) (items : List OrderItem)
  deriving DecidableEq

/-- routes.ts 293–297: destructure any caller-supplied `orderId` away and
re-validate the remaining fields (`insertOrderItemSchema.omit({orderId})`). -/
def stripOrderId (r : RawOrderItem) : InsertOrderItem :=
  { productId := r.productId, quantity := r.quantity, unitPrice := r.unitPrice }

/-- `POST /api/orders` (routes.ts 282–306) over the in-memory backend:
reject an empty item list with a 400 before touching storage; otherwise
strip `orderId` from every submitted item, call `storage.createOrder`, read
back the stored line items, and answer 201 with the order and its items. -/
def postOrders (s : MemState) (order : InsertOrder)
    (rawItems : List RawOrderItem) (now : Nat) :
    OrderRouteResult × MemState :=
  if rawItems.length = 0 then
    (.badRequest "Order must have at least one item", s)
  else
    let itemsData := rawItems.map stripOrderId
    let r := MemStorage.createOrder s order itemsData now
    let its := (alookup r.2.orderItems r.1.id).getD []
    (.created r.1 its, r.2)

/-- The tables `DatabaseStorage.createOrder` touches, plus the serial-column
sequences that assign order and order-item ids.  `orderItems` is a flat
table here, as in Postgres. -/
structure DbState where
  products : List (Int × Product)
  orders : List (Int × Order)
  orderItems : List OrderItem
  nextOrderId : Int
  nextOrderItemId : Int
  deriving DecidableEq

/-- The storage-failure error of the spec's taxonomy (§7). -/
inductive DbErr
  | NotPersisted
  deriving DecidableEq

namespace DatabaseStorage

/-- storage.ts 200: `tx.insert(orders).values(order).returning()` — the
serial column assigns the next order id, `defaultNow()` the timestamp. -/
def insertOrderStep (order : InsertOrder) (now : Nat) (s : DbState) :
    DbState :=
  let o : Order :=
    { id := s.nextOrderId, customerId := order.customerId, orderDate := now,
      status := order.status, total := order.total }
  { s with orders := aset s.orders o.id o, nextOrderId := s.nextOrderId + 1 }

/-- storage.ts 202–210: the single batch insert of all line items, each with
`orderId` set to the new order's id and a serial item id. -/
def insertItemsStep (oid : Int) (items : List InsertOrderItem) (s : DbState) :
    DbState :=
  { s with
      orderItems := s.orderItems ++ itemsWithIds s.nextOrderItemId oid items
      nextOrderItemId := s.nextOrderItemId + items.length }

/-- storage.ts 213–226: one iteration of the stock loop — select the product
row by `item.productId`; when it exists, write back the clamped stock
`Math.max(0, product.stock - item.quantity)`; otherwise do nothing. -/
def adjustStockStep (item : InsertOrderItem) (s : DbState) : DbState :=
  match alookup s.products item.productId with
  | some p =>
      let p' : Product := { p with stock := max 0 (p.stock - item.quantity) }
      { s with products := aset s.products item.productId p' }
  | none => s

/-- The sequence of statements the transaction body issues, in source order
(storage.ts 198–229): insert the order, batch-insert the items when the
list is non-empty, then adjust stock once per item. -/
def createOrderSteps (s0 : DbState) (order : InsertOrder)
    (items : List InsertOrderItem) (now : Nat) : List (DbState → DbState) :=
  insertOrderStep order now ::
    ((if items.length > 0 then [insertItemsStep s0.nextOrderId items]
      else []) ++ items.map adjustStockStep)

def runSteps : List (DbState → DbState) → DbState → DbState
  | [], s => s
  | f :: rest, s => runSteps rest (f s)

/-- `db.transaction` (storage.ts 198) under fault injection: the statements
run in order; if statement number `faultAt` fails before the body completes,
the whole transaction rolls back and the pre-call state stays observable;
otherwise the fully-updated state is committed.  `faultAt = none` (or an
index past the last statement) is a fault-free run. -/
def transaction (steps : List (DbState → DbState)) (faultAt : Option Nat)
    (s : DbState) : Except DbErr Unit × DbState :=
  match faultAt with
  | some k =>
      if k < steps.length then (.error .NotPersisted, s)
      else (.ok (), runSteps steps s)
  | none => (.ok (), runSteps steps s)

/-- `DatabaseStorage.createOrder` (storage.ts 196–230) under fault
injection: run the transaction; on success return the order the insert
produced (id from the serial sequence of the pre-call state). -/
def createOrder (s : DbState) (order : InsertOrder)
    (items : List InsertOrderItem) (now : Nat) (faultAt : Option Nat) :
    Except DbErr Order × DbState :=
  let newOrder : Order :=
    { id := s.nextOrderId, customerId := order.customerId, orderDate := now,
      status := order.status, total := order.total }
  match transaction (createOrderSteps s order items now) faultAt s with
  | (.ok _, s') => (.ok newOrder, s')
  | (.error e, s') => (.error e, s')

end DatabaseStorage

/-- Sample product mirroring the seeded "Red Roses" row, stock 10 as in the
spec's Scenario A. -/
def pRoses : Product :=
  { id := 1, name := "Red Roses", description := none, sku := "RS-001",
    price := "24.99", imageUrl := none, categoryId := some 1, stock := 10 }

/-- Sample product with stock 1, for the oversell and negative-stock
scenarios. -/
def pTulips : Product :=
  { id := 2, name := "Tulip Bouquet", description := none, sku := "TB-012",
    price := "32.99", imageUrl := none, categoryId := some 2, stock := 1 }

/-- A pre-existing order, so the sample state has an order to update and a
pre-existing order id a malicious line item could try to name. -/
def oExisting : Order :=
  { id := 1, customerId := none, orderDate := 0, status := "pending",
    total := "10.00" }

/-- A small concrete `MemStorage` state used to evaluate the theorems. -/
def sampleState : MemState :=
  { users := [], categories := [], customers := [],
    products := [(1, pRoses), (2, pTulips)],
    orders := [(1, oExisting)],
    orderItems := [(1, [])],
    userId := 1, categoryId := 1, productId := 3, customerId := 1,
    orderId := 2, orderItemId := 1 }

def sampleOrder : InsertOrder :=
  { customerId := none, status := "pending", total := "49.98" }

def sampleItems : List InsertOrderItem :=
  [{ productId := 1, quantity := 2, unitPrice := "24.99" }]

/-- Raw submitted items that even name the pre-existing order id 1. -/
def sampleRawItems : List RawOrderItem :=
  [{ orderId := some 1, productId := 1, quantity := 2, unitPrice := "24.99" }]

def sampleDbState : DbState :=
  { products := [(1, pRoses)], orders := [], orderItems := [],
    nextOrderId := 1, nextOrderItemId := 1 }

/-- An item list whose second line item references product id 99, which
does not exist in `sampleState`. -/
def sampleItemsDangling : List InsertOrderItem :=
  [{ productId := 1, quantity := 2, unitPrice := "24.99" },
   { productId := 99, quantity := 1, unitPrice := "5.00" }]

section AListLemmas

variable {α : Type}

theorem alookup_aset_self (m : List (Int × α)) (k : Int) (v : α) :
    alookup (aset m k v) k = some v := by
  induction m with
  | nil => simp [aset, alookup]
  | cons e rest ih =>
      obtain ⟨k0, v0⟩ := e
      by_cases h : k = k0
      · simp [aset, alookup, h]
      · simp [aset, alookup, h, ih]

theorem alookup_aset_ne (m : List (Int × α)) (k k' : Int) (v : α)
    (h : k' ≠ k) : alookup (aset m k v) k' = alookup m k' := by
  induction m with
  | nil => simp [aset, alookup, h]
  | cons e rest ih =>
      obtain ⟨k0, v0⟩ := e
      by_cases h0 : k = k0
      · subst h0
        simp [aset, alookup, h]
      · by_cases h1 : k' = k0 <;> simp [aset, alookup, h0, h1, ih]

theorem aset_length_of_none (m : List (Int × α)) (k : Int) (v : α)
    (h : alookup m k = none) : (aset m k v).length = m.length + 1 := by
  induction m with
  | nil => simp [aset]
  | cons e rest ih =>
      obtain ⟨k0, v0⟩ := e
      by_cases h0 : k = k0
      · subst h0
        simp [alookup] at h
      · simp [alookup, h0] at h
        simp [aset, h0, ih h]

theorem alookup_isSome_mem (m : List (Int × α)) (k : Int)
    (h : (alookup m k).isSome) : ∃ v, (k, v) ∈ m := by
  induction m with
  | nil => simp [alookup] at h
  | cons e rest ih =>
      obtain ⟨k0, v0⟩ := e
      by_cases h0 : k = k0
      · subst h0
        exact ⟨v0, List.mem_cons_self _ _⟩
      · simp [alookup, h0] at h
        obtain ⟨v, hv⟩ := ih h
        exact ⟨v, List.mem_cons_of_mem _ hv⟩

theorem alookup_map_id (m : List (Int × Product)) (hwf : productsWF m)
    (k : Int) (p : Product) (h : alookup m k = some p) : p.id = k := by
  induction m with
  | nil => simp [alookup] at h
  | cons e rest ih =>
      obtain ⟨k0, v0⟩ := e
      by_cases h0 : k = k0
      · subst h0
        simp [alookup] at h
        rcases h with rfl
        exact hwf _ (List.mem_cons_self _ _)
      · simp [alookup, h0] at h
        exact ih (fun e he => hwf e (List.mem_cons_of_mem _ he)) h

theorem productsWF_aset (m : List (Int × Product)) (hwf : productsWF m)
    (k : Int) (p : Product) (hid : p.id = k) : productsWF (aset m k p) := by
  induction m with
  | nil =>
      intro e he
      simp [aset] at he
      subst he; exact hid
  | cons e0 rest ih =>
      obtain ⟨k0, v0⟩ := e0
      intro e he
      by_cases h0 : k = k0
      · subst h0
        simp [aset] at he
        rcases he with he | he
        · subst he; exact hid
        · exact hwf e (List.mem_cons_of_mem _ he)
      · simp [aset, h0] at he
        rcases he with he | he
        · subst he; exact hwf (k0, v0) (List.mem_cons_self _ _)
        · exact ih (fun e' he' => hwf e' (List.mem_cons_of_mem _ he')) e he

end AListLemmas

theorem itemsWithIds_length (oid : Int) (items : List InsertOrderItem) :
    ∀ nid, (itemsWithIds nid oid items).length = items.length := by
  induction items with
  | nil => intro nid; simp [itemsWithIds]
  | cons it rest ih => intro nid; simp [itemsWithIds, ih]

theorem itemsWithIds_orderId (oid : Int) (items : List InsertOrderItem) :
    ∀ nid, ∀ oi ∈ itemsWithIds nid oid items, oi.orderId = oid := by
  induction items with
  | nil => intro nid oi h; simp [itemsWithIds] at h
  | cons it rest ih =>
      intro nid oi h
      simp [itemsWithIds] at h
      rcases h with rfl | h
      · rfl
      · exact ih (nid + 1) oi h

theorem itemsWithIds_fields (oid : Int) (items : List InsertOrderItem) :
    ∀ nid, (itemsWithIds nid oid items).map
        (fun oi => (oi.productId, oi.quantity, oi.unitPrice))
      = items.map (fun it => (it.productId, it.quantity, it.unitPrice)) := by
  induction items with
  | nil => intro nid; simp [itemsWithIds]
  | cons it rest ih => intro nid; simp [itemsWithIds, ih]

theorem processItems_fst (oid : Int) (items : List InsertOrderItem) :
    ∀ (products : List (Int × Product)) (nid : Int),
      (MemStorage.processItems products nid oid items).1
        = itemsWithIds nid oid items := by
  induction items with
  | nil => intro products nid; simp [MemStorage.processItems, itemsWithIds]
  | cons it rest ih =>
      intro products nid
      cases h : alookup products it.productId with
      | none => simp [MemStorage.processItems, itemsWithIds, h, ih]
      | some p => simp [MemStorage.processItems, itemsWithIds, h, ih]

theorem processItems_counter (oid : Int) (items : List InsertOrderItem) :
    ∀ (products : List (Int × Product)) (nid : Int),
      (MemStorage.processItems products nid oid items).2.2
        = nid + items.length := by
  induction items with
  | nil => intro products nid; simp [MemStorage.processItems]
  | cons it rest ih =>
      intro products nid
      cases h : alookup products it.productId with
      | none =>
          simp [MemStorage.processItems, h, ih]
          omega
      | some p =>
          simp [MemStorage.processItems, h, ih]
          omega

theorem Product.withStock_withStock (p : Product) (a b : Int) :
    ({ { p with stock := a } with stock := b } : Product)
      = { p with stock := b } := rfl

/-- Stock effect of the per-item loop: after `processItems` runs, the entry
for any key `k` is the old entry with its stock replaced by the fold of
per-item clamps (`applyStock`); keys absent before stay absent. -/
theorem processItems_lookup (oid : Int) (items : List InsertOrderItem) :
    ∀ (products : List (Int × Product)) (nid k : Int),
      productsWF products →
      alookup (MemStorage.processItems products nid oid items).2.1 k
        = Option.map (fun p => { p with stock := applyStock p.stock k items })
            (alookup products k) := by
  induction items with
  | nil =>
      intro products nid k _
      cases h : alookup products k <;> simp [MemStorage.processItems, applyStock, h]
  | cons it rest ih =>
      intro products nid k hwf
      cases h : alookup products it.productId with
      | none =>
          by_cases hk : it.productId = k
          · subst hk
            rw [show (MemStorage.processItems products nid oid (it :: rest)).2.1
                  = (MemStorage.processItems products (nid + 1) oid rest).2.1 by
                simp [MemStorage.processItems, h]]
            rw [ih products (nid + 1) it.productId hwf, h]
            simp [h]
          · rw [show (MemStorage.processItems products nid oid (it :: rest)).2.1
                  = (MemStorage.processItems products (nid + 1) oid rest).2.1 by
                simp [MemStorage.processItems, h]]
            rw [ih products (nid + 1) k hwf]
            simp [applyStock, hk]
      | some p =>
          have hpid : p.id = it.productId := alookup_map_id products hwf _ p h
          have hwf' : productsWF (aset products p.id
              { p with stock := max 0 (p.stock - it.quantity) }) :=
            productsWF_aset products hwf p.id _ rfl
          rw [show (MemStorage.processItems products nid oid (it :: rest)).2.1
                = (MemStorage.processItems
                    (aset products p.id
                      { p with stock := max 0 (p.stock - it.quantity) })
                    (nid + 1) oid rest).2.1 by
              simp [MemStorage.processItems, h]]
          rw [ih _ (nid + 1) k hwf']
          by_cases hk : it.productId = k
          · subst hk
            rw [hpid, alookup_aset_self, h]
            simp [applyStock, Product.withStock_withStock, hpid]
          · rw [alookup_aset_ne _ _ _ _
              (by rw [hpid]; exact fun hc => hk hc.symm)]
            cases hq : alookup products k <;> simp [applyStock, hk, hq]

theorem sumQty_nonneg (k : Int) (items : List InsertOrderItem)
    (h : ∀ it ∈ items, 0 ≤ it.quantity) : 0 ≤ sumQty k items := by
  induction items with
  | nil => simp [sumQty]
  | cons it rest ih =>
      have h1 := h it (List.mem_cons_self _ _)
      have h2 := ih (fun it' hit' => h it' (List.mem_cons_of_mem _ hit'))
      by_cases hk : it.productId = k <;> simp [sumQty, hk] <;> omega

theorem applyStock_eq_of_nonneg (k : Int) (items : List InsertOrderItem) :
    ∀ s : Int, 0 ≤ s → (∀ it ∈ items, 0 ≤ it.quantity) →
      applyStock s k items = max 0 (s - sumQty k items) := by
  induction items with
  | nil => intro s hs _; simp [applyStock, sumQty]; omega
  | cons it rest ih =>
      intro s hs hq
      have hq0 := hq it (List.mem_cons_self _ _)
      have hqrest : ∀ it' ∈ rest, 0 ≤ it'.quantity :=
        fun it' hit' => hq it' (List.mem_cons_of_mem _ hit')
      have hQ := sumQty_nonneg k rest hqrest
      by_cases hk : it.productId = k
      · rw [show applyStock s k (it :: rest)
              = applyStock (max 0 (s - it.quantity)) k rest by
            simp [applyStock, hk]]
        rw [ih _ (le_max_left _ _) hqrest]
        simp [sumQty, hk]
        omega
      · rw [show applyStock s k (it :: rest) = applyStock s k rest by
            simp [applyStock, hk]]
        rw [ih s hs hqrest]
        simp [sumQty, hk]

theorem applyStock_eq_of_referenced (k : Int) (items : List InsertOrderItem) :
    ∀ s : Int, (∃ it ∈ items, it.productId = k) →
      (∀ it ∈ items, 0 ≤ it.quantity) →
      applyStock s k items = max 0 (s - sumQty k items) := by
  induction items with
  | nil => intro s hex _; simp at hex
  | cons it rest ih =>
      intro s hex hq
      have hqrest : ∀ it' ∈ rest, 0 ≤ it'.quantity :=
        fun it' hit' => hq it' (List.mem_cons_of_mem _ hit')
      have hQ := sumQty_nonneg k rest hqrest
      by_cases hk : it.productId = k
      · rw [show applyStock s k (it :: rest)
              = applyStock (max 0 (s - it.quantity)) k rest by
            simp [applyStock, hk]]
        rw [applyStock_eq_of_nonneg k rest _ (le_max_left _ _) hqrest]
        simp [sumQty, hk]
        omega
      · have hex' : ∃ it' ∈ rest, it'.productId = k := by
          rcases hex with ⟨it', hit', hpid⟩
          rcases List.mem_cons.mp hit' with rfl | hmem
          · exact absurd hpid hk
          · exact ⟨it', hmem, hpid⟩
        rw [show applyStock s k (it :: rest) = applyStock s k rest by
            simp [applyStock, hk]]
        rw [ih s hex' hqrest]
        simp [sumQty, hk]

theorem applyStock_of_not_referenced (k : Int) (items : List InsertOrderItem)
    (h : ∀ it ∈ items, it.productId ≠ k) :
    ∀ s : Int, applyStock s k items = s := by
  induction items with
  | nil => intro s; simp [applyStock]
  | cons it rest ih =>
      intro s
      have h1 := h it (List.mem_cons_self _ _)
      rw [show applyStock s k (it :: rest) = applyStock s k rest by
        simp [applyStock, h1]]
      exact ih (fun it' hit' => h it' (List.mem_cons_of_mem _ hit')) s

theorem alookup_none_of_ordersFresh (s : MemState) (h : ordersFresh s) :
    alookup s.orders s.orderId = none := by
  cases hl : alookup s.orders s.orderId with
  | none => rfl
  | some v =>
      obtain ⟨v', hv⟩ := alookup_isSome_mem s.orders s.orderId (by simp [hl])
      exact absurd (h (s.orderId, v') hv) (lt_irrefl _)

theorem alookup_none_of_orderItemsFresh (s : MemState)
    (h : orderItemsFresh s) : alookup s.orderItems s.orderId = none := by
  cases hl : alookup s.orderItems s.orderId with
  | none => rfl
  | some v =>
      obtain ⟨v', hv⟩ := alookup_isSome_mem s.orderItems s.orderId (by simp [hl])
      exact absurd (h (s.orderId, v') hv) (lt_irrefl _)

theorem createOrder_fst (s : MemState) (order : InsertOrder)
    (items : List InsertOrderItem) (now : Nat) :
    (MemStorage.createOrder s order items now).1
      = { id := s.orderId, customerId := order.customerId, orderDate := now,
          status := order.status, total := order.total } := rfl

theorem createOrder_products (s : MemState) (order : InsertOrder)
    (items : List InsertOrderItem) (now : Nat) :
    (MemStorage.createOrder s order items now).2.products
      = (MemStorage.processItems s.products s.orderItemId s.orderId items).2.1
      := rfl

theorem createOrder_orders (s : MemState) (order : InsertOrder)
    (items : List InsertOrderItem) (now : Nat) :
    (MemStorage.createOrder s order items now).2.orders
      = aset s.orders s.orderId (MemStorage.createOrder s order items now).1
      := rfl

theorem createOrder_orderItems (s : MemState) (order : InsertOrder)
    (items : List InsertOrderItem) (now : Nat) :
    (MemStorage.createOrder s order items now).2.orderItems
      = aset s.orderItems s.orderId
          (MemStorage.processItems s.products s.orderItemId s.orderId items).1
      := rfl

theorem createOrder_orderId (s : MemState) (order : InsertOrder)
    (items : List InsertOrderItem) (now : Nat) :
    (MemStorage.createOrder s order items now).2.orderId = s.orderId + 1 := rfl

theorem createOrder_users (s : MemState) (order : InsertOrder)
    (items : List InsertOrderItem) (now : Nat) :
    (MemStorage.createOrder s order items now).2.users = s.users := rfl

theorem createOrder_categories (s : MemState) (order : InsertOrder)
    (items : List InsertOrderItem) (now : Nat) :
    (MemStorage.createOrder s order items now).2.categories = s.categories
      := rfl

theorem createOrder_customers (s : MemState) (order : InsertOrder)
    (items : List InsertOrderItem) (now : Nat) :
    (MemStorage.createOrder s order items now).2.customers = s.customers := rfl

/-- C1: for a `createOrder` call with a non-empty item list of positive
quantities, every product referenced by at least one line item ends with
stock `max 0 (stock_before - sum of that product's quantities in the
order)` — never negative — even though the code clamps once per line item
in sequence. -/
theorem createOrder_stock_clamped_sum
    (s : MemState) (order : InsertOrder) (items : List InsertOrderItem)
    (now : Nat) (pid : Int) (p : Product)
    (hwf : productsWF s.products) (hne : items ≠ [])
    (hq : ∀ it ∈ items, 0 < it.quantity)
    (hp : alookup s.products pid = some p)
    (href : ∃ it ∈ items, it.productId = pid) :
    alookup (MemStorage.createOrder s order items now).2.products pid
        = some { p with stock := max 0 (p.stock - sumQty pid items) } ∧
      ∀ q : Product,
        alookup (MemStorage.createOrder s order items now).2.products pid
            = some q → 0 ≤ q.stock := by
  have h1 : alookup (MemStorage.createOrder s order items now).2.products pid
      = some { p with stock := applyStock p.stock pid items } := by
    rw [createOrder_products,
      processItems_lookup s.orderId items s.products s.orderItemId pid hwf,
      hp]
    rfl
  have h2 := applyStock_eq_of_referenced pid items p.stock href
    (fun it h => le_of_lt (hq it h))
  refine ⟨by rw [h1, h2], ?_⟩
  intro q hqq
  have h3 := h1.symm.trans hqq
  injection h3 with h3
  rw [← h3]
  simp [h2]

/-- C1 witness: Scenario A — ordering 2 of product 1 (stock 10) leaves
stock `max 0 (10 - 2) = 8`, which is non-negative. -/
theorem createOrder_stock_clamped_sum_witness :
    alookup
        ((MemStorage.createOrder sampleState sampleOrder sampleItems 7).2.products)
        1
      = some { pRoses with stock := max 0 (pRoses.stock - sumQty 1 sampleItems) }
      := by
  exact (createOrder_stock_clamped_sum sampleState sampleOrder sampleItems 7 1
    pRoses (by decide) (by decide) (by decide) rfl (by decide)).1

/-- C3: `POST /api/orders` with an empty item list answers the 400
validation error before invoking the storage layer, and the state — orders,
order items, product stock, everything — is exactly the pre-call state. -/
theorem postOrders_empty_invalid (s : MemState) (order : InsertOrder)
    (rawItems : List RawOrderItem) (now : Nat) (hempty : rawItems = []) :
    postOrders s order rawItems now
      = (.badRequest "Order must have at least one item", s) := by
  subst hempty
  rfl

/-- C3 witness: Scenario C on the sample state. -/
theorem postOrders_empty_invalid_witness :
    postOrders sampleState sampleOrder [] 3
      = (.badRequest "Order must have at least one item", sampleState) :=
  postOrders_empty_invalid sampleState sampleOrder [] 3 rfl

/-- C4: a `createOrder` call containing a line item whose productId matches
no product still succeeds — the order and all `items.length` line items
(including the dangling one, with its fields intact) are persisted, nothing
is created under the missing product id, and every existing product's stock
is adjusted by the usual per-item clamp loop. -/
theorem createOrder_skips_missing_product
    (s : MemState) (order : InsertOrder) (items : List InsertOrderItem)
    (now : Nat) (it0 : InsertOrderItem)
    (hwf : productsWF s.products) (hmem : it0 ∈ items)
    (hmissing : alookup s.products it0.productId = none) :
    alookup ((MemStorage.createOrder s order items now).2.orders)
        ((MemStorage.createOrder s order items now).1.id)
      = some (MemStorage.createOrder s order items now).1 ∧
    (∃ l, alookup ((MemStorage.createOrder s order items now).2.orderItems)
        ((MemStorage.createOrder s order items now).1.id) = some l ∧
      l.length = items.length ∧
      l.map (fun oi => (oi.productId, oi.quantity, oi.unitPrice))
        = items.map (fun it => (it.productId, it.quantity, it.unitPrice))) ∧
    alookup ((MemStorage.createOrder s order items now).2.products)
        it0.productId = none ∧
    (∀ k p, alookup s.products k = some p →
      alookup ((MemStorage.createOrder s order items now).2.products) k
        = some { p with stock := applyStock p.stock k items }) := by
  have hid : (MemStorage.createOrder s order items now).1.id = s.orderId := rfl
  refine ⟨?_, ?_, ?_, ?_⟩
  · rw [createOrder_orders, hid]
    exact alookup_aset_self _ _ _
  · refine ⟨(MemStorage.processItems s.products s.orderItemId s.orderId
        items).1, ?_, ?_, ?_⟩
    · rw [createOrder_orderItems, hid]
      exact alookup_aset_self _ _ _
    · rw [processItems_fst, itemsWithIds_length]
    · rw [processItems_fst, itemsWithIds_fields]
  · rw [createOrder_products,
      processItems_lookup s.orderId items s.products s.orderItemId _ hwf,
      hmissing]
    rfl
  · intro k p hp
    rw [createOrder_products,
      processItems_lookup s.orderId items s.products s.orderItemId k hwf, hp]
    rfl

/-- C4 witness: ordering product 1 plus missing product 99 creates nothing
under id 99 and clamp-adjusts product 1 as usual. -/
theorem createOrder_skips_missing_product_witness :
    alookup ((MemStorage.createOrder sampleState sampleOrder
        sampleItemsDangling 0).2.products) 99 = none ∧
    alookup ((MemStorage.createOrder sampleState sampleOrder
        sampleItemsDangling 0).2.products) 1
      = some { pRoses with stock := applyStock pRoses.stock 1 sampleItemsDangling }
      := by
  have h := createOrder_skips_missing_product sampleState sampleOrder
    sampleItemsDangling 0 ⟨99, 1, "5.00"⟩ (by decide) (by decide) rfl
  exact ⟨h.2.2.1, h.2.2.2 1 pRoses rfl⟩

/-- C5: for a non-empty item list whose product references all exist,
`createOrder` persists exactly one new order under an id that did not exist
before the call, leaves every other order binding unchanged, and stores
exactly `items.length` line items all carrying the generated order id. -/
theorem createOrder_persists_exactly_one
    (s : MemState) (order : InsertOrder) (items : List InsertOrderItem)
    (now : Nat) (hne : items ≠ [])
    (hvalid : ∀ it ∈ items, (alookup s.products it.productId).isSome)
    (hofresh : ordersFresh s) :
    alookup s.orders ((MemStorage.createOrder s order items now).1.id)
      = none ∧
    alookup ((MemStorage.createOrder s order items now).2.orders)
        ((MemStorage.createOrder s order items now).1.id)
      = some (MemStorage.createOrder s order items now).1 ∧
    ((MemStorage.createOrder s order items now).2.orders).length
      = s.orders.length + 1 ∧
    (∀ k, k ≠ (MemStorage.createOrder s order items now).1.id →
      alookup ((MemStorage.createOrder s order items now).2.orders) k
        = alookup s.orders k) ∧
    ∃ l, alookup ((MemStorage.createOrder s order items now).2.orderItems)
        ((MemStorage.createOrder s order items now).1.id) = some l ∧
      l.length = items.length ∧
      ∀ oi ∈ l, oi.orderId = (MemStorage.createOrder s order items now).1.id
      := by
  have hid : (MemStorage.createOrder s order items now).1.id = s.orderId := rfl
  have hnone := alookup_none_of_ordersFresh s hofresh
  refine ⟨?_, ?_, ?_, ?_, ?_⟩
  · rw [hid]
    exact hnone
  · rw [createOrder_orders, hid]
    exact alookup_aset_self _ _ _
  · rw [createOrder_orders]
    exact aset_length_of_none _ _ _ hnone
  · intro k hk
    rw [createOrder_orders]
    exact alookup_aset_ne _ _ _ _ (by rw [hid] at hk; exact hk)
  · refine ⟨(MemStorage.processItems s.products s.orderItemId s.orderId
        items).1, ?_, ?_, ?_⟩
    · rw [createOrder_orderItems, hid]
      exact alookup_aset_self _ _ _
    · rw [processItems_fst, itemsWithIds_length]
    · rw [processItems_fst]
      intro oi hoi
      rw [hid]
      exact itemsWithIds_orderId s.orderId items s.orderItemId oi hoi

/-- C5 witness: on the sample state the generated order id 2 is fresh and
the orders map grows by exactly one binding. -/
theorem createOrder_persists_exactly_one_witness :
    alookup sampleState.orders
        ((MemStorage.createOrder sampleState sampleOrder sampleItems 2).1.id)
      = none ∧
    List.length
        ((MemStorage.createOrder sampleState sampleOrder sampleItems 2).2.orders)
      = sampleState.orders.length + 1 := by
  have h := createOrder_persists_exactly_one sampleState sampleOrder
    sampleItems 2 (by decide) (by decide) (by decide)
  exact ⟨h.1, h.2.2.1⟩

/-- C6: `createOrder` is not idempotent — running it twice with the same
input produces two persisted orders with distinct generated ids. -/
theorem createOrder_not_idempotent
    (s : MemState) (order : InsertOrder) (items : List InsertOrderItem)
    (now1 now2 : Nat) :
    (MemStorage.createOrder s order items now1).1.id
      ≠ (MemStorage.createOrder
          (MemStorage.createOrder s order items now1).2 order items now2).1.id
      ∧
    alookup ((MemStorage.createOrder
          (MemStorage.createOrder s order items now1).2 order items
          now2).2.orders)
        ((MemStorage.createOrder s order items now1).1.id)
      = some (MemStorage.createOrder s order items now1).1 ∧
    alookup ((MemStorage.createOrder
          (MemStorage.createOrder s order items now1).2 order items
          now2).2.orders)
        ((MemStorage.createOrder
          (MemStorage.createOrder s order items now1).2 order items
          now2).1.id)
      = some (MemStorage.createOrder
          (MemStorage.createOrder s order items now1).2 order items now2).1
      := by
  have hid1 : (MemStorage.createOrder s order items now1).1.id = s.orderId :=
    rfl
  have hid2 : (MemStorage.createOrder
      (MemStorage.createOrder s order items now1).2 order items now2).1.id
    = s.orderId + 1 := rfl
  refine ⟨?_, ?_, ?_⟩
  · rw [hid1, hid2]
    omega
  · rw [createOrder_orders
      (MemStorage.createOrder s order items now1).2 order items now2, hid1]
    rw [alookup_aset_ne _ _ _ _ (by rw [createOrder_orderId]; omega)]
    rw [createOrder_orders s order items now1]
    exact alookup_aset_self _ _ _
  · rw [createOrder_orders
      (MemStorage.createOrder s order items now1).2 order items now2]
    exact alookup_aset_self _ _ _

/-- C7: `createOrder` leaves the user, category and customer stores
untouched, leaves every product not referenced by a line item unchanged,
and changes nothing but the stock field of referenced products. -/
theorem createOrder_frame
    (s : MemState) (order : InsertOrder) (items : List InsertOrderItem)
    (now : Nat) (hwf : productsWF s.products) :
    (MemStorage.createOrder s order items now).2.users = s.users ∧
    (MemStorage.createOrder s order items now).2.categories = s.categories ∧
    (MemStorage.createOrder s order items now).2.customers = s.customers ∧
    (∀ k, (∀ it ∈ items, it.productId ≠ k) →
      alookup ((MemStorage.createOrder s order items now).2.products) k
        = alookup s.products k) ∧
    (∀ k p, alookup s.products k = some p →
      ∃ p', alookup ((MemStorage.createOrder s order items now).2.products) k
          = some p' ∧
        p'.id = p.id ∧ p'.name = p.name ∧ p'.description = p.description ∧
        p'.sku = p.sku ∧ p'.price = p.price ∧ p'.imageUrl = p.imageUrl ∧
        p'.categoryId = p.categoryId) := by
  refine ⟨rfl, rfl, rfl, ?_, ?_⟩
  · intro k hk
    rw [createOrder_products,
      processItems_lookup s.orderId items s.products s.orderItemId k hwf]
    cases hp : alookup s.products k with
    | none => rfl
    | some p => simp [applyStock_of_not_referenced k items hk]
  · intro k p hp
    rw [createOrder_products,
      processItems_lookup s.orderId items s.products s.orderItemId k hwf, hp]
    exact ⟨{ p with stock := applyStock p.stock k items },
      rfl, rfl, rfl, rfl, rfl, rfl, rfl, rfl⟩

/-- C7 witness: the sample order touches neither the users store nor
product 2, which none of its line items reference. -/
theorem createOrder_frame_witness :
    (MemStorage.createOrder sampleState sampleOrder sampleItems 1).2.users
      = sampleState.users ∧
    alookup ((MemStorage.createOrder sampleState sampleOrder
        sampleItems 1).2.products) 2
      = alookup sampleState.products 2 := by
  have h := createOrder_frame sampleState sampleOrder sampleItems 1 (by decide)
  exact ⟨h.1, h.2.2.2.1 2 (by decide)⟩

/-- C8: `updateOrderStatus` writes exactly the supplied status string —
any string, including ones outside the enumerated states — onto an existing
order, leaving its other fields, every other order, and the rest of the
state unchanged; for a missing id it returns `none` and changes nothing. -/
theorem updateOrderStatus_unconstrained
    (s : MemState) (oid : Int) (st : String) :
    (∀ o, alookup s.orders oid = some o →
      (MemStorage.updateOrderStatus s oid st).1
        = some { o with status := st } ∧
      alookup ((MemStorage.updateOrderStatus s oid st).2.orders) oid
        = some { o with status := st } ∧
      (∀ k, k ≠ oid →
        alookup ((MemStorage.updateOrderStatus s oid st).2.orders) k
          = alookup s.orders k) ∧
      (MemStorage.updateOrderStatus s oid st).2.users = s.users ∧
      (MemStorage.updateOrderStatus s oid st).2.categories = s.categories ∧
      (MemStorage.updateOrderStatus s oid st).2.products = s.products ∧
      (MemStorage.updateOrderStatus s oid st).2.customers = s.customers ∧
      (MemStorage.updateOrderStatus s oid st).2.orderItems = s.orderItems) ∧
    (alookup s.orders oid = none →
      MemStorage.updateOrderStatus s oid st = (none, s)) := by
  constructor
  · intro o ho
    have hru : MemStorage.updateOrderStatus s oid st
        = (some { o with status := st },
           { s with orders := aset s.orders oid { o with status := st } })
        := by
      simp only [MemStorage.updateOrderStatus, ho]
    rw [hru]
    exact ⟨rfl, alookup_aset_self _ _ _,
      fun k hk => alookup_aset_ne _ _ _ _ hk, rfl, rfl, rfl, rfl, rfl⟩
  · intro ho
    simp only [MemStorage.updateOrderStatus, ho]

/-- C8 witness: a status string far outside the enumerated set is written
verbatim onto order 1, and a missing order id changes nothing. -/
theorem updateOrderStatus_unconstrained_witness :
    (MemStorage.updateOrderStatus sampleState 1 "no-such-status").1
      = some { oExisting with status := "no-such-status" } ∧
    MemStorage.updateOrderStatus sampleState 99 "x" = (none, sampleState) := by
  have h1 := updateOrderStatus_unconstrained sampleState 1 "no-such-status"
  have h2 := updateOrderStatus_unconstrained sampleState 99 "x"
  exact ⟨(h1.1 oExisting rfl).1, h2.2 rfl⟩

/-- C9: `updateProductStock` sets the stock of an existing product to
exactly `stock + quantity` with no clamp, so a negative quantity larger in
magnitude than the current stock drives the stored stock negative. -/
theorem updateProductStock_unclamped
    (s : MemState) (pid q : Int) (p : Product)
    (hp : alookup s.products pid = some p) :
    (MemStorage.updateProductStock s pid q).1
      = some { p with stock := p.stock + q } ∧
    alookup ((MemStorage.updateProductStock s pid q).2.products) pid
      = some { p with stock := p.stock + q } ∧
    (p.stock + q < 0 → ∀ p',
      alookup ((MemStorage.updateProductStock s pid q).2.products) pid
        = some p' → p'.stock < 0) := by
  have hru : MemStorage.updateProductStock s pid q
      = (some { p with stock := p.stock + q },
         { s with
             products := aset s.products pid { p with stock := p.stock + q } })
      := by
    simp only [MemStorage.updateProductStock, hp]
  rw [hru]
  refine ⟨rfl, alookup_aset_self _ _ _, ?_⟩
  intro hneg p' hp'
  have h2 := (alookup_aset_self s.products pid
    { p with stock := p.stock + q }).symm.trans hp'
  injection h2 with h2
  rw [← h2]
  exact hneg

/-- C9 witness: product 2 has stock 1; adjusting by -10 stores stock -9,
which is negative. -/
theorem updateProductStock_unclamped_witness :
    (MemStorage.updateProductStock sampleState 2 (-10)).1
      = some { pTulips with stock := pTulips.stock + (-10) } ∧
    ({ pTulips with stock := pTulips.stock + (-10) } : Product).stock < 0
      := by
  have h := updateProductStock_unclamped sampleState 2 (-10) pTulips rfl
  exact ⟨h.1, h.2.2 (by decide) _ h.2.1⟩

/-- C2: the `db.transaction` wrapper makes `DatabaseStorage.createOrder`
atomic — a fault at any statement of the transaction body reports
`NotPersisted` with the observable orders, order items and product stock
exactly as before the call, while a fault-free run commits every effect. -/
theorem dbCreateOrder_atomic
    (s : DbState) (order : InsertOrder) (items : List InsertOrderItem)
    (now : Nat) (k : Nat)
    (hk : k < (DatabaseStorage.createOrderSteps s order items now).length) :
    (DatabaseStorage.createOrder s order items now (some k)).2 = s ∧
    (DatabaseStorage.createOrder s order items now (some k)).2.orders
      = s.orders ∧
    (DatabaseStorage.createOrder s order items now (some k)).2.orderItems
      = s.orderItems ∧
    (DatabaseStorage.createOrder s order items now (some k)).2.products
      = s.products ∧
    (DatabaseStorage.createOrder s order items now (some k)).1
      = Except.error DbErr.NotPersisted ∧
    (DatabaseStorage.createOrder s order items now none).2
      = DatabaseStorage.runSteps
          (DatabaseStorage.createOrderSteps s order items now) s := by
  have h : DatabaseStorage.createOrder s order items now (some k)
      = (Except.error DbErr.NotPersisted, s) := by
    simp only [DatabaseStorage.createOrder, DatabaseStorage.transaction,
      if_pos hk]
  rw [h]
  exact ⟨rfl, rfl, rfl, rfl, rfl, rfl⟩

/-- C2 witness: a fault at the very first statement (the order insert)
leaves the sample database state untouched. -/
theorem dbCreateOrder_atomic_witness :
    (DatabaseStorage.createOrder sampleDbState sampleOrder sampleItems 0
        (some 0)).2 = sampleDbState ∧
    (DatabaseStorage.createOrder sampleDbState sampleOrder sampleItems 0
        (some 0)).1 = Except.error DbErr.NotPersisted := by
  have h := dbCreateOrder_atomic sampleDbState sampleOrder sampleItems 0 0
    (by decide)
  exact ⟨h.1, h.2.2.2.2.1⟩

/-- C10: the order-creation route strips any caller-supplied `orderId` from
every submitted line item, so even when items name an existing order's id,
every persisted line item carries the newly generated order id — an id no
pre-existing order has — and no other order's line items change. -/
theorem postOrders_items_belong_to_new_order
    (s : MemState) (order : InsertOrder) (rawItems : List RawOrderItem)
    (now : Nat) (hne : rawItems ≠ [])
    (hofresh : ordersFresh s) :
    ∃ o its,
      (postOrders s order rawItems now).1 = OrderRouteResult.created o its ∧
      alookup s.orders o.id = none ∧
      alookup ((postOrders s order rawItems now).2.orderItems) o.id
        = some its ∧
      (∀ it ∈ its, it.orderId = o.id) ∧
      (∀ k, k ≠ o.id →
        alookup ((postOrders s order rawItems now).2.orderItems) k
          = alookup s.orderItems k) := by
  have hlen : ¬ rawItems.length = 0 := by
    cases rawItems with
    | nil => exact absurd rfl hne
    | cons a l => simp
  have hid : (MemStorage.createOrder s order (rawItems.map stripOrderId)
      now).1.id = s.orderId := rfl
  have hpost : postOrders s order rawItems now
      = (OrderRouteResult.created
           (MemStorage.createOrder s order (rawItems.map stripOrderId) now).1
           ((alookup
              ((MemStorage.createOrder s order (rawItems.map stripOrderId)
                now).2.orderItems)
              ((MemStorage.createOrder s order (rawItems.map stripOrderId)
                now).1.id)).getD []),
         (MemStorage.createOrder s order (rawItems.map stripOrderId) now).2)
      := by
    simp only [postOrders, if_neg hlen]
  refine ⟨(MemStorage.createOrder s order (rawItems.map stripOrderId) now).1,
    (MemStorage.processItems s.products s.orderItemId s.orderId
      (rawItems.map stripOrderId)).1, ?_, ?_, ?_, ?_, ?_⟩
  · rw [hpost]
    show OrderRouteResult.created _ _ = OrderRouteResult.created _ _
    congr 1
    rw [createOrder_orderItems, hid, alookup_aset_self]
    rfl
  · rw [hid]
    exact alookup_none_of_ordersFresh s hofresh
  · rw [hpost]
    show alookup ((MemStorage.createOrder s order
        (rawItems.map stripOrderId) now).2.orderItems) _ = _
    rw [createOrder_orderItems, hid]
    exact alookup_aset_self _ _ _
  · intro it hit
    rw [processItems_fst] at hit
    rw [hid]
    exact itemsWithIds_orderId s.orderId (rawItems.map stripOrderId)
      s.orderItemId it hit
  · intro k hk
    rw [hpost]
    show alookup ((MemStorage.createOrder s order
        (rawItems.map stripOrderId) now).2.orderItems) k = _
    rw [createOrder_orderItems]
    exact alookup_aset_ne _ _ _ _ (by rw [hid] at hk; exact hk)

/-- C10 witness: submitted items naming the pre-existing order id 1 leave
order 1's line-item list untouched. -/
theorem postOrders_items_belong_to_new_order_witness :
    alookup ((postOrders sampleState sampleOrder sampleRawItems 4).2.orderItems) 1
      = alookup sampleState.orderItems 1 := by
  obtain ⟨o, its, h1, h2, h3, h4, h5⟩ :=
    postOrders_items_belong_to_new_order sampleState sampleOrder
      sampleRawItems 4 (by decide) (by decide)
  have hne1 : (1 : Int) ≠ o.id := by
    intro hcontra
    rw [← hcontra] at h2
    exact absurd h2 (by decide)
  exact h5 1 hne1
